import Mathlib

/-!
Shallow embedding of the session-based user authentication service
(`0x03-user_authentication_service`: `user.py`, `db.py`, `auth.py`).

The persistent store is a list of user records (the `users` table, in
insertion order; SQLAlchemy's `Query.first()` takes the first row in that
order).  Randomness (uuid4 session/reset tokens, bcrypt salts) is external
input to the program, so the corresponding values are explicit parameters
of the embedded operations.  Python exceptions are rendered as an `Except`
result; state-mutating operations also return the resulting store (on an
exception the store is returned unchanged, since every mutation is a single
commit that the raising paths never reach).
-/

/-- The `User` model of `user.py`: surrogate integer primary key, mandatory
`email` and `hashed_password` columns, nullable `session_id` and
`reset_token` columns. -/
structure User where
  id : Nat
  email : String
  hashed_password : String
  session_id : Option String
  reset_token : Option String
deriving Repr, DecidableEq

/-- The contents of the `users` table, in insertion order. -/
abbrev Store := List User

/-- A value passed as a keyword argument to `DB.find_user_by` /
`DB.update_user`: the engine passes integers (`id`), strings (`email`,
`hashed_password`, `session_id`, `reset_token`) and `None`
(clearing `session_id` / `reset_token`). -/
inductive AttrValue where
  | nat (n : Nat)
  | str (s : String)
  | null
deriving Repr, DecidableEq

/-- The exceptions raised by the embedded code: Python `ValueError` (with
its message), `sqlalchemy.exc.InvalidRequestError` and
`sqlalchemy.orm.exc.NoResultFound`. -/
inductive Err where
  | valueError (msg : String)
  | invalidRequest
  | noResultFound
deriving Repr, DecidableEq

/-- Decidable equality of operation results, so concrete runs can be
checked by evaluation. -/
instance {ε α : Type} [DecidableEq ε] [DecidableEq α] : DecidableEq (Except ε α) := fun x y =>
  match x, y with
  | Except.ok a, Except.ok b =>
    if h : a = b then Decidable.isTrue (congrArg Except.ok h)
    else Decidable.isFalse (fun hh => h (Except.ok.inj hh))
  | Except.error a, Except.error b =>
    if h : a = b then Decidable.isTrue (congrArg Except.error h)
    else Decidable.isFalse (fun hh => h (Except.error.inj hh))
  | Except.ok _, Except.error _ => Decidable.isFalse (fun hh => Except.noConfusion hh)
  | Except.error _, Except.ok _ => Decidable.isFalse (fun hh => Except.noConfusion hh)

/-- The keys of `User.__dict__` that `DB._valid_attributes` checks keyword
names against: the five mapped columns together with the names Python puts
in every class dictionary (`__module__`, `__qualname__`, `__doc__`,
`__annotations__`, the class-body constant `__tablename__`) and the
attributes SQLAlchemy's declarative mapping installs on the class
(`_sa_class_manager`, `__table__`, `__mapper__`, and the instrumented
`__init__` the class manager places in the class dict).  Note this is a
strict superset of the five mapped column names. -/
def userDictKeys : List String :=
  ["__module__", "__qualname__", "__doc__", "__annotations__", "__tablename__",
   "id", "email", "hashed_password", "session_id", "reset_token",
   "_sa_class_manager", "__table__", "__mapper__", "__init__"]

/-- `DB._valid_attributes`: every keyword name must be a key of
`User.__dict__` (`set(kwargs).issubset(set(User.__dict__))`). -/
def _valid_attributes (names : List String) : Bool :=
  names.all (fun n => userDictKeys.contains n)

/-- Row filter generated by `Query.filter_by(key=value)` for one keyword.
For a mapped column, `filter_by(col=None)` emits `col IS NULL`, which
holds exactly on rows storing null (never on the non-nullable `id`,
`email`, `hashed_password`).  A non-null comparison follows SQLite type
affinity: the INTEGER-affinity `id` column compared with text converts a
decimal numeral to its number (modelled for decimal digit strings via
`String.toNat?`), and the TEXT-affinity columns compared with an integer
convert the integer to its decimal text.  For a non-column class
attribute (reachable because `_valid_attributes` accepts every
`User.__dict__` key) SQLAlchemy 1.3 resolves `getattr(User, key)` to the
plain Python object, so the comparison is decided at query-build time:
against the class-body string constants it is a constant boolean, and
against the instrumentation objects (`__table__`, `__mapper__`,
`__init__`, `_sa_class_manager`, `__annotations__`) equality with a
passed string/number/`None` is `False`. -/
def matchesCriterion (u : User) : String × AttrValue → Bool
  | ("id", AttrValue.nat n) => u.id == n
  | ("id", AttrValue.str v) => v.toNat? == some u.id
  | ("email", AttrValue.str v) => u.email == v
  | ("email", AttrValue.nat n) => u.email == toString n
  | ("hashed_password", AttrValue.str v) => u.hashed_password == v
  | ("hashed_password", AttrValue.nat n) => u.hashed_password == toString n
  | ("session_id", AttrValue.str v) => u.session_id == some v
  | ("session_id", AttrValue.nat n) => u.session_id == some (toString n)
  | ("session_id", AttrValue.null) => u.session_id == none
  | ("reset_token", AttrValue.str v) => u.reset_token == some v
  | ("reset_token", AttrValue.nat n) => u.reset_token == some (toString n)
  | ("reset_token", AttrValue.null) => u.reset_token == none
  | ("__tablename__", v) => v == AttrValue.str "users"
  | ("__module__", v) => v == AttrValue.str "user"
  | ("__qualname__", v) => v == AttrValue.str "User"
  | ("__doc__", v) => v == AttrValue.str "Define the User model."
  | _ => false

/-- `DB.find_user_by(**kwargs)`: raises `InvalidRequestError` when no
keyword is supplied or `_valid_attributes` rejects one; otherwise takes the
first row satisfying every criterion (`query.filter_by(**kwargs).first()`)
and raises `NoResultFound` when there is none. -/
def find_user_by (store : Store) (kwargs : List (String × AttrValue)) : Except Err User :=
  if kwargs.isEmpty then
    Except.error Err.invalidRequest
  else if ! _valid_attributes (kwargs.map Prod.fst) then
    Except.error Err.invalidRequest
  else
    match store.find? (fun u => kwargs.all (matchesCriterion u)) with
    | none => Except.error Err.noResultFound
    | some u => Except.ok u

/-- Primary-key value SQLite assigns to a freshly inserted row
(`INTEGER PRIMARY KEY` autoincrement: one more than the largest id). -/
def nextId (store : Store) : Nat :=
  (store.map User.id).foldr max 0 + 1

/-- `DB.add_user(email, hashed_password)`: inserts a new row with null
`session_id` / `reset_token` and returns it. -/
def add_user (store : Store) (email hashed_password : String) : User × Store :=
  let u : User :=
    { id := nextId store, email := email, hashed_password := hashed_password,
      session_id := none, reset_token := none }
  (u, store ++ [u])

/-- One `setattr(db_user, key, value)` step of `DB.update_user`.  Setting a
name that is not a mapped column creates a plain instance attribute that
the commit does not persist, so the stored record is unchanged. -/
def setattrField (u : User) : String × AttrValue → User
  | ("id", AttrValue.nat n) => { u with id := n }
  | ("email", AttrValue.str v) => { u with email := v }
  | ("hashed_password", AttrValue.str v) => { u with hashed_password := v }
  | ("session_id", AttrValue.str v) => { u with session_id := some v }
  | ("session_id", AttrValue.null) => { u with session_id := none }
  | ("reset_token", AttrValue.str v) => { u with reset_token := some v }
  | ("reset_token", AttrValue.null) => { u with reset_token := none }
  | _ => u

/-- All `setattr` steps of `DB.update_user`, applied in keyword order. -/
def applyUpdates (u : User) (kwargs : List (String × AttrValue)) : User :=
  kwargs.foldl setattrField u

/-- Replace the first record whose `id` is `uid` (the object
`find_user_by(id=user_id)` returned and `setattr` mutated). -/
def updateFirst (store : Store) (uid : Nat) (f : User → User) : Store :=
  match store with
  | [] => []
  | u :: rest => if u.id == uid then f u :: rest else u :: updateFirst rest uid f

/-- `DB.update_user(user_id, **kwargs)`: raises `ValueError` on an invalid
keyword name, re-raises `NoResultFound` from the id lookup, otherwise
applies every field write to the found record and commits. -/
def update_user (store : Store) (user_id : Nat) (kwargs : List (String × AttrValue)) :
    Except Err Unit × Store :=
  if ! _valid_attributes (kwargs.map Prod.fst) then
    (Except.error (Err.valueError "Unrecognized arguments for User."), store)
  else
    match find_user_by store [("id", AttrValue.nat user_id)] with
    | Except.error e => (Except.error e, store)
    | Except.ok _ => (Except.ok (), updateFirst store user_id (fun r => applyUpdates r kwargs))

/-- The seven-character `$2b$12$` header every bcrypt hash string starts
with (algorithm tag and cost factor). -/
def bcryptHeader : List Char :=
  ['$', '2', 'b', '$', '1', '2', '$']

/-- Model of `bcrypt.hashpw(password, salt)` as used by
`_hash_password`: the hash string is the header, the 22-character salt
drawn by `bcrypt.gensalt()`, then digest material; bcrypt being injective
in the password for a fixed salt (collisions aside), the digest is
modelled as determining the password outright. -/
def hashpw (salt password : String) : String :=
  { data := bcryptHeader ++ salt.data ++ password.data }

/-- Model of `bcrypt.checkpw(password, hashed)`: reads the salt out of the
first 29 characters of `hashed`, recomputes the hash of `password` with it
and compares with the stored digest. -/
def checkpw (password hashed : String) : Bool :=
  hashed.data.take 7 == bcryptHeader
    && decide (29 ≤ hashed.data.length)
    && hashed.data.drop 29 == password.data

/-- `Auth.register_user(email, password)` with the bcrypt salt made
explicit.  Rejects an empty email, then an empty password, then an already
registered email; otherwise stores the salted hash of the password. -/
def register_user (store : Store) (email password salt : String) : Except Err User × Store :=
  if email = "" then
    (Except.error (Err.valueError "email missing"), store)
  else if password = "" then
    (Except.error (Err.valueError "password missing"), store)
  else
    match find_user_by store [("email", AttrValue.str email)] with
    | Except.ok _ =>
        (Except.error (Err.valueError ("User " ++ email ++ " already exists")), store)
    | Except.error Err.noResultFound =>
        let p := add_user store email (hashpw salt password)
        (Except.ok p.1, p.2)
    | Except.error e => (Except.error e, store)

/-- `Auth.valid_login(email, password)`: `False` when the email matches no
record, otherwise the bcrypt check of the password against the stored
hash. -/
def valid_login (store : Store) (email password : String) : Except Err Bool :=
  match find_user_by store [("email", AttrValue.str email)] with
  | Except.error Err.noResultFound => Except.ok false
  | Except.error e => Except.error e
  | Except.ok db_user => Except.ok (checkpw password db_user.hashed_password)

/-- `Auth.create_session(email)` with the generated uuid made explicit.
Returns `none` when the email matches no record; otherwise persists the
token as the record's `session_id` and returns `db_user.session_id`.
Because `update_user`'s internal `find_user_by(id=...)` goes through the
SQLAlchemy identity map, the object it mutates is the very object
`db_user` names, so reading `db_user.session_id` after the update reads
the just-written token; the embedding renders that read as a lookup of the
record in the updated store. -/
def create_session (store : Store) (email token : String) :
    Except Err (Option String) × Store :=
  match find_user_by store [("email", AttrValue.str email)] with
  | Except.error Err.noResultFound => (Except.ok none, store)
  | Except.error e => (Except.error e, store)
  | Except.ok db_user =>
    match update_user store db_user.id [("session_id", AttrValue.str token)] with
    | (Except.error e, s2) => (Except.error e, s2)
    | (Except.ok _, s2) =>
      match find_user_by s2 [("id", AttrValue.nat db_user.id)] with
      | Except.ok updated => (Except.ok updated.session_id, s2)
      | Except.error e => (Except.error e, s2)

/-- `Auth.get_user_from_session_id(session_id)`: the cookie value may be
absent (`None`) or a string; both `None` and `""` are falsy, short-circuit
to `None` before any query.  Otherwise the record holding the session id is
looked up, `None` on no match. -/
def get_user_from_session_id (store : Store) (session_id : Option String) :
    Except Err (Option User) :=
  match session_id with
  | none => Except.ok none
  | some sid =>
    if sid = "" then Except.ok none
    else
      match find_user_by store [("session_id", AttrValue.str sid)] with
      | Except.error Err.noResultFound => Except.ok none
      | Except.error e => Except.error e
      | Except.ok db_user => Except.ok (some db_user)

/-- `Auth.destroy_session(user_id)`: `ValueError` when the id matches no
record, otherwise clears the record's `session_id` to null. -/
def destroy_session (store : Store) (user_id : Nat) : Except Err Unit × Store :=
  match find_user_by store [("id", AttrValue.nat user_id)] with
  | Except.error Err.noResultFound =>
      (Except.error (Err.valueError (toString user_id ++ " is not a valid user ID.")), store)
  | Except.error e => (Except.error e, store)
  | Except.ok _ => update_user store user_id [("session_id", AttrValue.null)]

/-- `Auth.get_reset_password_token(email)` with the generated uuid made
explicit: rejects an empty email, `ValueError` when the email matches no
record, otherwise persists the token as `reset_token` and returns it. -/
def get_reset_password_token (store : Store) (email token : String) :
    Except Err String × Store :=
  if email = "" then
    (Except.error (Err.valueError "email missing"), store)
  else
    match find_user_by store [("email", AttrValue.str email)] with
    | Except.error Err.noResultFound =>
        (Except.error (Err.valueError ("User with email " ++ email ++ " not found")), store)
    | Except.error e => (Except.error e, store)
    | Except.ok db_user =>
      match update_user store db_user.id [("reset_token", AttrValue.str token)] with
      | (Except.error e, s2) => (Except.error e, s2)
      | (Except.ok _, s2) => (Except.ok token, s2)

/-- `Auth.update_password(reset_token, password)` with the bcrypt salt made
explicit: `ValueError` when no record holds the reset token, otherwise one
update writes the fresh hash to `hashed_password` and clears `reset_token`
to null. -/
def update_password (store : Store) (reset_token password salt : String) :
    Except Err Unit × Store :=
  match find_user_by store [("reset_token", AttrValue.str reset_token)] with
  | Except.error Err.noResultFound =>
      (Except.error (Err.valueError "Reset token is invalid or expired"), store)
  | Except.error e => (Except.error e, store)
  | Except.ok db_user =>
      update_user store db_user.id
        [("hashed_password", AttrValue.str (hashpw salt password)),
         ("reset_token", AttrValue.null)]

/-- The database file `a.db` as a whole: the `users` table either exists
with some contents or does not exist. -/
structure Database where
  users : Option Store
deriving Repr, DecidableEq

/-- `Base.metadata.drop_all(engine)`: drops the `users` table (the only
table in the metadata), discarding its contents. -/
def drop_all (_db : Database) : Database :=
  { users := none }

/-- `Base.metadata.create_all(engine)`: creates the `users` table empty
when it does not exist; an existing table is left as found. -/
def create_all (db : Database) : Database :=
  match db.users with
  | none => { users := some [] }
  | some t => { users := some t }

/-- `DB.__init__`: connects to `a.db` (whose prior contents may survive
from an earlier process) and runs `drop_all` then `create_all`. -/
def DB_init (prior : Database) : Database :=
  create_all (drop_all prior)

/-- `Auth.__init__`: constructs the engine state by constructing a fresh
`DB` (`self._db = DB()`), with everything that entails. -/
def Auth_init (prior : Database) : Database :=
  DB_init prior

/-- Store states reachable through the engine, starting from the empty
table `DB.__init__` leaves and closed under every state-changing engine
operation (with arbitrary inputs and arbitrary externally drawn random
tokens and salts), whether the operation succeeds or raises. -/
inductive Reachable : Store → Prop where
  | init : Reachable []
  | register (s : Store) (email password salt : String) :
      Reachable s → Reachable (register_user s email password salt).2
  | session (s : Store) (email token : String) :
      Reachable s → Reachable (create_session s email token).2
  | destroy (s : Store) (uid : Nat) :
      Reachable s → Reachable (destroy_session s uid).2
  | reset (s : Store) (email token : String) :
      Reachable s → Reachable (get_reset_password_token s email token).2
  | consume (s : Store) (tok pw salt : String) :
      Reachable s → Reachable (update_password s tok pw salt).2

/-- Store-wide credential invariant: every stored password hash is the
bcrypt hash of some password under some salt (only hashed material is ever
written to `hashed_password`). -/
def HashedMaterialOnly (s : Store) : Prop :=
  ∀ u ∈ s, ∃ salt pw, u.hashed_password = hashpw salt pw

/-- A concrete 22-character salt, as `bcrypt.gensalt()` draws. -/
def salt22 : String := "abcdefghijklmnopqrstuv"

/-! General lemmas about the embedding's building blocks. -/

theorem string_eq_of_data {a b : String} (h : a.data = b.data) : a = b := by
  cases a
  cases b
  exact congrArg String.mk h

theorem find?_split {α : Type} {p : α → Bool} {l : List α} {a : α}
    (h : l.find? p = some a) :
    ∃ l₁ l₂, l = l₁ ++ a :: l₂ ∧ (∀ x ∈ l₁, p x = false) ∧ p a = true := by
  induction l with
  | nil => simp [List.find?] at h
  | cons x xs ih =>
    by_cases hx : p x
    · refine ⟨[], xs, ?_, ?_, ?_⟩ <;> simp_all [List.find?]
    · simp [List.find?, hx] at h
      obtain ⟨l₁, l₂, rfl, h1, h2⟩ := ih h
      exact ⟨x :: l₁, l₂, rfl, by simpa [hx] using h1, h2⟩

theorem find?_append_none {α : Type} {p : α → Bool} {l₁ : List α} (l₂ : List α)
    (h : ∀ x ∈ l₁, p x = false) :
    (l₁ ++ l₂).find? p = l₂.find? p := by
  induction l₁ with
  | nil => rfl
  | cons x xs ih =>
    have hx : p x = false := h x (List.mem_cons_self x xs)
    simp only [List.cons_append, List.find?, hx]
    exact ih (fun y hy => h y (List.mem_cons_of_mem x hy))

theorem find?_eq_none_of_all {α : Type} {p : α → Bool} {l : List α}
    (h : ∀ x ∈ l, p x = false) : l.find? p = none := by
  have := @find?_append_none _ p l [] h
  simpa using this

theorem updateFirst_append {l₁ : Store} {u : User} {l₂ : Store} {uid : Nat}
    (f : User → User)
    (h₁ : ∀ x ∈ l₁, (x.id == uid) = false) (h₂ : u.id = uid) :
    updateFirst (l₁ ++ u :: l₂) uid f = l₁ ++ f u :: l₂ := by
  induction l₁ with
  | nil => simp [updateFirst, h₂]
  | cons x xs ih =>
    have hx : (x.id == uid) = false := h₁ x (List.mem_cons_self x xs)
    have ih2 := ih (fun y hy => h₁ y (List.mem_cons_of_mem x hy))
    simp [updateFirst, hx, ih2]

theorem mem_updateFirst {s : Store} {uid : Nat} {f : User → User} {v : User}
    (h : v ∈ updateFirst s uid f) : v ∈ s ∨ ∃ u, u ∈ s ∧ v = f u := by
  induction s with
  | nil => simp [updateFirst] at h
  | cons x xs ih =>
    by_cases hx : (x.id == uid) = true
    · simp only [updateFirst, hx, if_true] at h
      rcases List.mem_cons.mp h with h | h
      · exact Or.inr ⟨x, List.mem_cons_self x xs, h⟩
      · exact Or.inl (List.mem_cons_of_mem x h)
    · simp only [updateFirst, hx, if_false] at h
      rcases List.mem_cons.mp h with h | h
      · exact Or.inl (h ▸ List.mem_cons_self x xs)
      · rcases ih h with h | ⟨u, hu, hv⟩
        · exact Or.inl (List.mem_cons_of_mem x h)
        · exact Or.inr ⟨u, List.mem_cons_of_mem x hu, hv⟩

theorem find_user_by_single (s : Store) (kv : String × AttrValue)
    (h : userDictKeys.contains kv.1 = true) :
    find_user_by s [kv] =
      match s.find? (fun u => matchesCriterion u kv) with
      | none => Except.error Err.noResultFound
      | some u => Except.ok u := by
  have hpred : (fun u => [kv].all (matchesCriterion u)) = (fun u => matchesCriterion u kv) := by
    funext u
    simp [List.all_cons]
  have h2 : kv.1 ∈ userDictKeys := by simpa using h
  simp [find_user_by, _valid_attributes, h2, hpred]

theorem find_user_by_ok {s : Store} {kv : String × AttrValue} {u : User}
    (h : userDictKeys.contains kv.1 = true)
    (hfind : find_user_by s [kv] = Except.ok u) :
    s.find? (fun r => matchesCriterion r kv) = some u := by
  rw [find_user_by_single s kv h] at hfind
  cases hf : s.find? (fun r => matchesCriterion r kv) with
  | none => rw [hf] at hfind; exact absurd hfind (by simp)
  | some w =>
    rw [hf] at hfind
    simp only [Except.ok.injEq] at hfind
    simp [hfind]

theorem find?_append_found {α : Type} (l₁ l₂ : List α) (a : α) (p : α → Bool)
    (h₁ : ∀ x ∈ l₁, p x = false) (h₂ : p a = true) :
    (l₁ ++ a :: l₂).find? p = some a := by
  rw [find?_append_none _ h₁]
  simp [List.find?, h₂]

theorem find?_middle_none {α : Type} (l₁ l₂ : List α) (a : α) (p : α → Bool)
    (h₁ : ∀ x ∈ l₁, p x = false) (h₂ : p a = false) (h₃ : ∀ x ∈ l₂, p x = false) :
    (l₁ ++ a :: l₂).find? p = none := by
  rw [find?_append_none _ h₁]
  simp only [List.find?, h₂]
  exact find?_eq_none_of_all h₃

theorem find?_id_of_nodup {s : Store} {u : User} (hmem : u ∈ s)
    (hnodup : (s.map User.id).Nodup) : s.find? (fun r => r.id == u.id) = some u := by
  induction s with
  | nil => simp at hmem
  | cons x xs ih =>
    rcases List.mem_cons.mp hmem with rfl | hmem2
    · simp [List.find?]
    · have hnd := hnodup
      rw [List.map_cons, List.nodup_cons] at hnd
      have hx : (x.id == u.id) = false := by
        have hidmem : u.id ∈ xs.map User.id := List.mem_map_of_mem User.id hmem2
        have : x.id ≠ u.id := fun hEq => hnd.1 (hEq ▸ hidmem)
        simpa using this
      simp only [List.find?, hx]
      exact ih hmem2 hnd.2

theorem find_user_by_email (s : Store) (e : String) :
    find_user_by s [("email", AttrValue.str e)] =
      match s.find? (fun r => r.email == e) with
      | none => Except.error Err.noResultFound
      | some u => Except.ok u :=
  find_user_by_single s ("email", AttrValue.str e) (by rfl)

theorem find_user_by_id (s : Store) (n : Nat) :
    find_user_by s [("id", AttrValue.nat n)] =
      match s.find? (fun r => r.id == n) with
      | none => Except.error Err.noResultFound
      | some u => Except.ok u :=
  find_user_by_single s ("id", AttrValue.nat n) (by rfl)

theorem find_user_by_session (s : Store) (t : String) :
    find_user_by s [("session_id", AttrValue.str t)] =
      match s.find? (fun r => r.session_id == some t) with
      | none => Except.error Err.noResultFound
      | some u => Except.ok u :=
  find_user_by_single s ("session_id", AttrValue.str t) (by rfl)

theorem find_user_by_reset (s : Store) (t : String) :
    find_user_by s [("reset_token", AttrValue.str t)] =
      match s.find? (fun r => r.reset_token == some t) with
      | none => Except.error Err.noResultFound
      | some u => Except.ok u :=
  find_user_by_single s ("reset_token", AttrValue.str t) (by rfl)

theorem hashpw_data (salt pw : String) :
    (hashpw salt pw).data = (bcryptHeader ++ salt.data) ++ pw.data := by
  simp [hashpw]

theorem checkpw_hashpw (salt pw : String) (hs : salt.length = 22) :
    checkpw pw (hashpw salt pw) = true := by
  have h22 : salt.data.length = 22 := hs
  have h29 : (bcryptHeader ++ salt.data).length = 29 := by
    simp [List.length_append, h22, bcryptHeader]
  have htake : (bcryptHeader ++ (salt.data ++ pw.data)).take 7 = bcryptHeader := by
    have h7 : (7 : Nat) = bcryptHeader.length := by simp [bcryptHeader]
    rw [h7, List.take_left]
  have hdrop : (bcryptHeader ++ (salt.data ++ pw.data)).drop 29 = pw.data := by
    rw [← List.append_assoc, ← h29, List.drop_left]
  simp only [checkpw, hashpw_data, List.append_assoc, Bool.and_eq_true, beq_iff_eq,
    decide_eq_true_eq, List.length_append, Bool.and_true, Bool.true_and]
  refine ⟨⟨htake, ?_⟩, hdrop⟩
  have hb : bcryptHeader.length = 7 := rfl
  omega

theorem checkpw_hashpw_eq {salt pw w : String} (hs : salt.length = 22)
    (h : checkpw w (hashpw salt pw) = true) : w = pw := by
  have h22 : salt.data.length = 22 := hs
  have h29 : (bcryptHeader ++ salt.data).length = 29 := by
    simp [List.length_append, h22, bcryptHeader]
  have hdrop : ((bcryptHeader ++ salt.data) ++ pw.data).drop 29 = pw.data := by
    rw [← h29, List.drop_left]
  simp only [checkpw, hashpw_data, Bool.and_eq_true, beq_iff_eq] at h
  exact string_eq_of_data (by rw [← h.2, hdrop])

theorem checkpw_hashpw_ne {salt pw w : String} (hs : salt.length = 22)
    (hne : w ≠ pw) : checkpw w (hashpw salt pw) = false := by
  cases hc : checkpw w (hashpw salt pw) with
  | false => rfl
  | true => exact absurd (checkpw_hashpw_eq hs hc) hne

theorem hashpw_ne (salt pw : String) : hashpw salt pw ≠ pw := by
  intro h
  have hdata : (hashpw salt pw).data = pw.data := congrArg String.data h
  have hlen := congrArg List.length hdata
  simp [hashpw_data, List.length_append, bcryptHeader] at hlen
  omega


theorem get_user_from_session_eq (s : Store) (t : String) (ht : ¬ t = "") :
    get_user_from_session_id s (some t) =
      match s.find? (fun r => r.session_id == some t) with
      | none => Except.ok none
      | some u => Except.ok (some u) := by
  simp only [get_user_from_session_id, if_neg ht, find_user_by_session]
  cases s.find? (fun r => r.session_id == some t) <;> rfl

/-! Theorems settling the claims. -/

/-- C9: constructing the Credential Store (`DB.__init__`, which every
`Auth()` construction also runs) drops and recreates the `users` table, so
whatever records the database held before, the new instance starts from an
empty store. -/
theorem C9_db_init_starts_empty (prior : Database) :
    (DB_init prior).users = some []
      ∧ Auth_init prior = DB_init prior := by
  exact ⟨rfl, rfl⟩

/-- C10: `valid_login` and `create_session` accept the empty email without
raising: as long as no stored record has an empty email (true of every
store the engine builds, since registration rejects empty emails), the
empty string reaches the store lookup, matches no record, and the calls
return `False` resp. `None` — unlike `register_user` and
`get_reset_password_token`, which raise `ValueError` on an empty email. -/
theorem C10_empty_email_no_missing_field (s : Store) (p tok : String)
    (hne : ∀ u ∈ s, u.email ≠ "") :
    valid_login s "" p = Except.ok false
      ∧ create_session s "" tok = (Except.ok none, s)
      ∧ (register_user s "" p salt22).1 = Except.error (Err.valueError "email missing")
      ∧ (get_reset_password_token s "" tok).1
          = Except.error (Err.valueError "email missing") := by
  have hfind : s.find? (fun r => r.email == ("" : String)) = none :=
    find?_eq_none_of_all (fun u hu => by simp [hne u hu])
  refine ⟨?_, ?_, ?_, ?_⟩
  · simp [valid_login, find_user_by_email, hfind]
  · simp [create_session, find_user_by_email, hfind]
  · simp [register_user]
  · simp [get_reset_password_token]

/-- C10 witness: a concrete registered store. -/
theorem C10_witness :
    valid_login [⟨1, "a@x.com", "H", none, none⟩] "" "pw" = Except.ok false
      ∧ create_session [⟨1, "a@x.com", "H", none, none⟩] "" "tok"
          = (Except.ok none, [⟨1, "a@x.com", "H", none, none⟩])
      ∧ (register_user [⟨1, "a@x.com", "H", none, none⟩] "" "pw" salt22).1
          = Except.error (Err.valueError "email missing")
      ∧ (get_reset_password_token [⟨1, "a@x.com", "H", none, none⟩] "" "tok").1
          = Except.error (Err.valueError "email missing") :=
  C10_empty_email_no_missing_field [⟨1, "a@x.com", "H", none, none⟩] "pw" "tok"
    (by decide)

/-- C8: `get_user_from_session_id` never raises: for every input it returns
an `ok` result; absent (`None`) or empty cookie input yields `None`
without touching the store, a non-empty token matching no record yields
`None`, and a token held by a record yields that record. -/
theorem C8_user_for_session_never_raises (s : Store) (sid : Option String) :
    (∃ r, get_user_from_session_id s sid = Except.ok r)
      ∧ get_user_from_session_id s none = Except.ok none
      ∧ get_user_from_session_id s (some "") = Except.ok none
      ∧ (∀ t, t ≠ "" → (∀ u ∈ s, u.session_id ≠ some t) →
          get_user_from_session_id s (some t) = Except.ok none)
      ∧ (∀ t u, t ≠ "" → s.find? (fun r => r.session_id == some t) = some u →
          get_user_from_session_id s (some t) = Except.ok (some u)) := by
  have hnone : ∀ t : String, t ≠ "" → (∀ u ∈ s, u.session_id ≠ some t) →
      get_user_from_session_id s (some t) = Except.ok none := by
    intro t ht hu
    rw [get_user_from_session_eq s t ht,
      find?_eq_none_of_all (fun u hmem => by simp [hu u hmem])]
  have hsome : ∀ (t : String) (u : User), t ≠ "" →
      s.find? (fun r => r.session_id == some t) = some u →
      get_user_from_session_id s (some t) = Except.ok (some u) := by
    intro t u ht hf
    rw [get_user_from_session_eq s t ht, hf]
  refine ⟨?_, rfl, rfl, hnone, hsome⟩
  match sid with
  | none => exact ⟨none, rfl⟩
  | some t =>
    by_cases ht : t = ""
    · subst ht; exact ⟨none, rfl⟩
    · cases hf : s.find? (fun r => r.session_id == some t) with
      | none =>
        refine ⟨none, hnone t ht ?_⟩
        intro u hu hcontra
        have := List.find?_eq_none.mp hf u hu
        simp [hcontra] at this
      | some u => exact ⟨some u, hsome t u ht hf⟩

/-- C8 witness: concrete store and inputs. -/
theorem C8_witness :
    (∃ r, get_user_from_session_id [⟨1, "a@x.com", "H", some "tok", none⟩] (some "tok")
        = Except.ok r)
      ∧ get_user_from_session_id [⟨1, "a@x.com", "H", some "tok", none⟩] none
          = Except.ok none
      ∧ get_user_from_session_id [⟨1, "a@x.com", "H", some "tok", none⟩] (some "")
          = Except.ok none
      ∧ (∀ t, t ≠ "" →
          (∀ u ∈ ([⟨1, "a@x.com", "H", some "tok", none⟩] : Store), u.session_id ≠ some t) →
          get_user_from_session_id [⟨1, "a@x.com", "H", some "tok", none⟩] (some t)
            = Except.ok none)
      ∧ (∀ t u, t ≠ "" →
          List.find? (fun r => r.session_id == some t)
              ([⟨1, "a@x.com", "H", some "tok", none⟩] : Store)
            = some u →
          get_user_from_session_id [⟨1, "a@x.com", "H", some "tok", none⟩] (some t)
            = Except.ok (some u)) :=
  C8_user_for_session_never_raises [⟨1, "a@x.com", "H", some "tok", none⟩] (some "tok")

/-- C5 counterexample: the claim quantifies over every password (and any
email the store holds), but `register_user` checks for empty email and
empty password before the duplicate-email check, so on a duplicate email
with an empty password it fails with the MissingField error, not
AlreadyExists (and likewise a store record with empty email yields the
email MissingField error). -/
theorem C5_counterexample :
    (register_user [⟨1, "a@x.com", "H", none, none⟩] "a@x.com" "" "s").1
        = Except.error (Err.valueError "password missing")
      ∧ (register_user [⟨1, "a@x.com", "H", none, none⟩] "a@x.com" "" "s").1
          ≠ Except.error (Err.valueError "User a@x.com already exists")
      ∧ (register_user [⟨1, "", "H", none, none⟩] "" "pw" "s").1
          = Except.error (Err.valueError "email missing")
      ∧ (register_user [⟨1, "", "H", none, none⟩] "" "pw" "s").1
          ≠ Except.error (Err.valueError "User  already exists") := by
  refine ⟨?_, ?_, ?_, ?_⟩ <;> decide

/-- C5 (amended): for a non-empty email e held by some record and every
non-empty password p, `register_user` fails with AlreadyExists and
returns the store unchanged — every record intact; empty email or empty
password instead fails earlier with the corresponding MissingField
error. -/
theorem C5_duplicate_register (s : Store) (e p salt : String) (r : User)
    (he : e ≠ "") (hp : p ≠ "")
    (hfind : find_user_by s [("email", AttrValue.str e)] = Except.ok r) :
    register_user s e p salt
      = (Except.error (Err.valueError ("User " ++ e ++ " already exists")), s) := by
  simp [register_user, he, hp, hfind]

/-- C5 witness: concrete duplicate registration attempt. -/
theorem C5_witness :
    register_user [⟨1, "a@x.com", "H", none, none⟩] "a@x.com" "pw2" "s"
      = (Except.error (Err.valueError "User a@x.com already exists"),
         [⟨1, "a@x.com", "H", none, none⟩]) :=
  C5_duplicate_register [⟨1, "a@x.com", "H", none, none⟩] "a@x.com" "pw2" "s"
    ⟨1, "a@x.com", "H", none, none⟩ (by decide) (by decide) (by decide)

/-- C6 counterexample: `"__tablename__"` is not one of the five recognized
fields (id, email, hashed_password, session_id, reset_token), yet
`find_user_by` does not fail with `InvalidRequestError` on it, because
`_valid_attributes` accepts every key of `User.__dict__`. -/
theorem C6_counterexample :
    ("__tablename__" ∈ ["id", "email", "hashed_password", "session_id", "reset_token"]
        → False)
      ∧ _valid_attributes ["__tablename__"] = true
      ∧ find_user_by [] [("__tablename__", AttrValue.str "users")]
          = Except.error Err.noResultFound
      ∧ find_user_by [] [("__tablename__", AttrValue.str "users")]
          ≠ Except.error Err.invalidRequest := by
  refine ⟨?_, ?_, ?_, ?_⟩ <;> decide

/-- C6 (amended): `find_user_by` fails with `InvalidRequestError` exactly
when no criteria are supplied or some criterion name is outside
`User.__dict__` — a strict superset of the five recognized fields that
also contains Python class internals such as `__tablename__` — and fails
with `NoResultFound` when the criteria pass that validation but zero
records match all of them. -/
theorem C6_find_user_by_errors (s : Store) (kwargs : List (String × AttrValue)) :
    (find_user_by s kwargs = Except.error Err.invalidRequest
        ↔ kwargs = [] ∨ ¬ _valid_attributes (kwargs.map Prod.fst) = true)
      ∧ (kwargs ≠ [] → _valid_attributes (kwargs.map Prod.fst) = true →
          (∀ u ∈ s, kwargs.all (matchesCriterion u) = false) →
          find_user_by s kwargs = Except.error Err.noResultFound) := by
  by_cases hk : kwargs = []
  · subst hk
    constructor
    · simp [find_user_by]
    · intro h
      exact absurd rfl h
  · have hke : kwargs.isEmpty = false := by
      simpa [List.isEmpty_iff] using hk
    by_cases hv : _valid_attributes (kwargs.map Prod.fst) = true
    · have hred : find_user_by s kwargs
          = match s.find? (fun u => kwargs.all (matchesCriterion u)) with
            | none => Except.error Err.noResultFound
            | some u => Except.ok u := by
        simp [find_user_by, hke, hv]
      constructor
      · rw [hred]
        constructor
        · intro h
          cases hf : s.find? (fun u => kwargs.all (matchesCriterion u)) with
          | none => rw [hf] at h; simp at h
          | some u => rw [hf] at h; simp at h
        · intro h
          rcases h with h | h
          · exact absurd h hk
          · exact absurd hv h
      · intro _ _ hnone
        rw [hred, find?_eq_none_of_all hnone]
    · have hred : find_user_by s kwargs = Except.error Err.invalidRequest := by
        have hv2 : (! _valid_attributes (kwargs.map Prod.fst)) = true := by
          simp [Bool.not_eq_true']
          exact Bool.not_eq_true _ |>.mp hv
        simp [find_user_by, hke, hv2]
      constructor
      · simp [hred, hv]
      · intro _ hv3 _
        exact absurd hv3 hv

/-- C6 witness: a valid single-criterion query on a store with no matching
record fails with `NoResultFound`. -/
theorem C6_witness :
    find_user_by [⟨1, "a@x.com", "H", none, none⟩] [("email", AttrValue.str "b@x.com")]
      = Except.error Err.noResultFound :=
  (C6_find_user_by_errors [⟨1, "a@x.com", "H", none, none⟩]
      [("email", AttrValue.str "b@x.com")]).2
    (by decide) (by decide) (by decide)

/-- C3: for a non-empty email not yet registered and a non-empty password
(with the 22-character salt `bcrypt.gensalt()` supplies), `register_user`
succeeds, after which `valid_login` accepts exactly the registered
password and rejects every other string. -/
theorem C3_register_then_verify (s : Store) (e p salt : String)
    (he : e ≠ "") (hp : p ≠ "") (hsalt : salt.length = 22)
    (hnew : ∀ u ∈ s, u.email ≠ e) :
    ∃ u s2, register_user s e p salt = (Except.ok u, s2)
      ∧ valid_login s2 e p = Except.ok true
      ∧ ∀ w, w ≠ p → valid_login s2 e w = Except.ok false := by
  have hfind : s.find? (fun r => r.email == e) = none :=
    find?_eq_none_of_all (fun u hu => by simp [hnew u hu])
  refine ⟨⟨nextId s, e, hashpw salt p, none, none⟩,
    s ++ [⟨nextId s, e, hashpw salt p, none, none⟩], ?_, ?_, ?_⟩
  · simp [register_user, he, hp, find_user_by_email, hfind, add_user]
  all_goals
    have hfind2 : (s ++ [(⟨nextId s, e, hashpw salt p, none, none⟩ : User)]).find?
        (fun r => r.email == e) = some ⟨nextId s, e, hashpw salt p, none, none⟩ := by
      rw [find?_append_none _ (fun u hu => by simp [hnew u hu])]
      simp [List.find?]
  · simp [valid_login, find_user_by_email, hfind2, checkpw_hashpw salt p hsalt]
  · intro w hw
    simp [valid_login, find_user_by_email, hfind2, checkpw_hashpw_ne hsalt hw]

/-- C3 witness: registering a concrete user on the empty store. -/
theorem C3_witness :
    ∃ u s2, register_user [] "a@x.com" "pw" salt22 = (Except.ok u, s2)
      ∧ valid_login s2 "a@x.com" "pw" = Except.ok true
      ∧ ∀ w, w ≠ "pw" → valid_login s2 "a@x.com" w = Except.ok false :=
  C3_register_then_verify [] "a@x.com" "pw" salt22
    (by decide) (by decide) (by decide) (by simp)

/-- C7: `destroy_session` fails with the invalid-user-id `ValueError` when
no record has the given id; otherwise it succeeds and sets that record's
`session_id` to null, so the token the record previously held no longer
resolves: `get_user_from_session_id` returns Absent for it (assuming, as
the spec's uniqueness invariant provides, that ids are unique and no other
record holds that token); and when the record already has no session the
clear is a no-op: the call succeeds and the store is returned exactly as
it was. -/
theorem C7_destroy_session (s : Store) (uid : Nat) :
    (find_user_by s [("id", AttrValue.nat uid)] = Except.error Err.noResultFound →
      destroy_session s uid
        = (Except.error (Err.valueError (toString uid ++ " is not a valid user ID.")), s))
    ∧ (∀ u tok, find_user_by s [("id", AttrValue.nat uid)] = Except.ok u →
        u.session_id = some tok → tok ≠ "" →
        (s.map User.id).Nodup →
        (∀ r ∈ s, r.session_id = some tok → r.id = uid) →
        ∃ s2, destroy_session s uid = (Except.ok (), s2)
          ∧ (∀ r ∈ s2, r.id = uid → r.session_id = none)
          ∧ get_user_from_session_id s2 (some tok) = Except.ok none)
    ∧ (∀ u, find_user_by s [("id", AttrValue.nat uid)] = Except.ok u →
        u.session_id = none →
        destroy_session s uid = (Except.ok (), s)) := by
  refine ⟨?_, ?_, ?_⟩
  · intro h
    simp [destroy_session, h]
  swap
  · intro u hfind hnull
    have hfq : s.find? (fun r => matchesCriterion r ("id", AttrValue.nat uid)) = some u :=
      find_user_by_ok (by rfl) hfind
    obtain ⟨l₁, l₂, hs, hl₁, hpu⟩ := find?_split hfq
    have hpu2 : (u.id == uid) = true := hpu
    have huid : u.id = uid := by simpa using hpu2
    have hl₁id : ∀ x ∈ l₁, (x.id == uid) = false := fun x hx => hl₁ x hx
    have hupd : update_user s uid [("session_id", AttrValue.null)]
        = (Except.ok (),
           updateFirst s uid (fun r => applyUpdates r [("session_id", AttrValue.null)])) := by
      have hva : _valid_attributes ["session_id"] = true := by rfl
      simp [update_user, hfind, hva]
    have hnoop : ({ u with session_id := none } : User) = u := by
      cases u
      simp_all
    have h0 : updateFirst (l₁ ++ u :: l₂) uid
          (fun r => applyUpdates r [("session_id", AttrValue.null)])
        = l₁ ++ ({ u with session_id := none } : User) :: l₂ :=
      updateFirst_append _ hl₁id huid
    rw [hnoop] at h0
    have hs2 : updateFirst s uid (fun r => applyUpdates r [("session_id", AttrValue.null)])
        = s := by
      rw [hs]
      exact h0
    simp only [destroy_session, hfind, hupd, hs2]
  · intro u tok hfind htok htokne hnodup huniq
    have hfq : s.find? (fun r => matchesCriterion r ("id", AttrValue.nat uid)) = some u :=
      find_user_by_ok (by rfl) hfind
    obtain ⟨l₁, l₂, hs, hl₁, hpu⟩ := find?_split hfq
    have hpu2 : (u.id == uid) = true := hpu
    have huid : u.id = uid := by simpa using hpu2
    have hl₁id : ∀ x ∈ l₁, (x.id == uid) = false := fun x hx => hl₁ x hx
    have hmem₁ : ∀ x ∈ l₁, x ∈ s := by
      intro x hx
      rw [hs]
      exact List.mem_append_left _ hx
    have hmem₂ : ∀ x ∈ l₂, x ∈ s := by
      intro x hx
      rw [hs]
      exact List.mem_append_right _ (List.mem_cons_of_mem _ hx)
    have hl₂id : ∀ x ∈ l₂, x.id ≠ uid := by
      intro x hx hEq
      have hnd2 : (u.id :: l₂.map User.id).Nodup := by
        have h0 := hnodup
        rw [hs, List.map_append, List.map_cons] at h0
        exact h0.of_append_right
      have hin : u.id ∈ l₂.map User.id := by
        rw [huid, ← hEq]
        exact List.mem_map_of_mem User.id hx
      exact (List.nodup_cons.mp hnd2).1 hin
    have hupd : update_user s uid [("session_id", AttrValue.null)]
        = (Except.ok (),
           updateFirst s uid (fun r => applyUpdates r [("session_id", AttrValue.null)])) := by
      have hva : _valid_attributes ["session_id"] = true := by rfl
      simp [update_user, hfind, hva]
    have hs2 : updateFirst s uid (fun r => applyUpdates r [("session_id", AttrValue.null)])
        = l₁ ++ ({ u with session_id := none } : User) :: l₂ := by
      rw [hs]
      exact updateFirst_append _ hl₁id huid
    refine ⟨l₁ ++ ({ u with session_id := none } : User) :: l₂, ?_, ?_, ?_⟩
    · simp only [destroy_session, hfind, hupd, hs2]
    · intro r hr hrid
      rcases List.mem_append.mp hr with hr | hr
      · exact absurd hrid (by simpa using hl₁id r hr)
      · rcases List.mem_cons.mp hr with rfl | hr
        · rfl
        · exact absurd hrid (hl₂id r hr)
    · rw [get_user_from_session_eq _ tok htokne]
      rw [find?_middle_none]
      · intro x hx
        have : x.session_id ≠ some tok := by
          intro hEq
          exact (by simpa using hl₁id x hx : x.id ≠ uid) (huniq x (hmem₁ x hx) hEq)
        simpa using this
      · rfl
      · intro x hx
        have : x.session_id ≠ some tok := by
          intro hEq
          exact hl₂id x hx (huniq x (hmem₂ x hx) hEq)
        simpa using this

/-- C7 witness: destroying the session of a concrete logged-in user, and
the no-op on a concrete user with no session. -/
theorem C7_witness :
    (∃ s2, destroy_session [⟨1, "a@x.com", "H", some "tok", none⟩] 1 = (Except.ok (), s2)
      ∧ (∀ r ∈ s2, r.id = 1 → r.session_id = none)
      ∧ get_user_from_session_id s2 (some "tok") = Except.ok none)
    ∧ destroy_session [⟨2, "b@x.com", "H", none, none⟩] 2
        = (Except.ok (), [⟨2, "b@x.com", "H", none, none⟩]) :=
  ⟨(C7_destroy_session [⟨1, "a@x.com", "H", some "tok", none⟩] 1).2.1
      ⟨1, "a@x.com", "H", some "tok", none⟩ "tok"
      (by decide) (by decide) (by decide) (by decide) (by decide),
   (C7_destroy_session [⟨2, "b@x.com", "H", none, none⟩] 2).2.2
      ⟨2, "b@x.com", "H", none, none⟩ (by decide) (by decide)⟩

/-- C1: for a registered email, `create_session` persists the freshly
generated token as that record's `session_id` (overwriting any prior
session) and returns that very token — not a stale pre-update value,
since the object it re-reads is the identity-mapped record just updated —
so `get_user_from_session_id` on the returned token yields that user's
identity; for an email with no record it returns `None` without error.
Freshness of the random token (matching no existing session) and
uniqueness of primary keys are assumed as hypotheses. -/
theorem C1_create_session (s : Store) (e token : String) :
    ((∀ r ∈ s, r.email ≠ e) → create_session s e token = (Except.ok none, s))
    ∧ (∀ u, find_user_by s [("email", AttrValue.str e)] = Except.ok u →
        (s.map User.id).Nodup →
        (∀ r ∈ s, r.session_id ≠ some token) → token ≠ "" →
        ∃ s2, create_session s e token = (Except.ok (some token), s2)
          ∧ ∃ u2, get_user_from_session_id s2 (some token) = Except.ok (some u2)
              ∧ u2.id = u.id ∧ u2.email = u.email) := by
  constructor
  · intro hne
    have hfind : s.find? (fun r => r.email == e) = none :=
      find?_eq_none_of_all (fun r hr => by simp [hne r hr])
    simp [create_session, find_user_by_email, hfind]
  · intro u hfind hnodup hfresh htokne
    have hfq : s.find? (fun r => matchesCriterion r ("email", AttrValue.str e)) = some u :=
      find_user_by_ok (by rfl) hfind
    have hmem : u ∈ s := List.mem_of_find?_eq_some hfq
    have hfid : s.find? (fun r => r.id == u.id) = some u := find?_id_of_nodup hmem hnodup
    obtain ⟨l₁, l₂, hs, hl₁, _⟩ := find?_split hfid
    have hl₁id : ∀ x ∈ l₁, (x.id == u.id) = false := hl₁
    have hfindid : find_user_by s [("id", AttrValue.nat u.id)] = Except.ok u := by
      rw [find_user_by_id, hfid]
    have hupd : update_user s u.id [("session_id", AttrValue.str token)]
        = (Except.ok (),
           updateFirst s u.id
             (fun r => applyUpdates r [("session_id", AttrValue.str token)])) := by
      have hva : _valid_attributes ["session_id"] = true := by rfl
      simp [update_user, hfindid, hva]
    have hs2 : updateFirst s u.id
          (fun r => applyUpdates r [("session_id", AttrValue.str token)])
        = l₁ ++ ({ u with session_id := some token } : User) :: l₂ := by
      rw [hs]
      exact updateFirst_append _ hl₁id rfl
    have hfid2 : (l₁ ++ ({ u with session_id := some token } : User) :: l₂).find?
        (fun r => r.id == u.id) = some { u with session_id := some token } := by
      apply find?_append_found _ _ _ _ hl₁id
      simp
    refine ⟨l₁ ++ ({ u with session_id := some token } : User) :: l₂, ?_, ?_⟩
    · simp only [create_session, hfind, hupd, hs2, find_user_by_id, hfid2]
    · refine ⟨{ u with session_id := some token }, ?_, rfl, rfl⟩
      rw [get_user_from_session_eq _ token htokne]
      have hfs : (l₁ ++ ({ u with session_id := some token } : User) :: l₂).find?
          (fun r => r.session_id == some token)
          = some { u with session_id := some token } := by
        apply find?_append_found
        · intro x hx
          have hxs : x ∈ s := by
            rw [hs]
            exact List.mem_append_left _ hx
          simpa using hfresh x hxs
        · simp
      rw [hfs]

/-- C1 witness: a registered user with an old session gets a fresh one. -/
theorem C1_witness :
    ∃ s2, create_session [⟨1, "a@x.com", "H", some "old", none⟩] "a@x.com" "tok"
        = (Except.ok (some "tok"), s2)
      ∧ ∃ u2, get_user_from_session_id s2 (some "tok") = Except.ok (some u2)
          ∧ u2.id = 1 ∧ u2.email = "a@x.com" :=
  (C1_create_session [⟨1, "a@x.com", "H", some "old", none⟩] "a@x.com" "tok").2
    ⟨1, "a@x.com", "H", some "old", none⟩
    (by decide) (by decide) (by decide) (by decide)

/-- C2: consuming a reset token held by a record writes the fresh hash of
the new password and clears `reset_token` to null in the same update, so
a second consumption of the same token fails with the invalid-token
`ValueError`; when no record holds the token, it fails likewise and the
store is returned unchanged.  Uniqueness of primary keys and of the live
token (the spec's global token-uniqueness invariant) are hypotheses. -/
theorem C2_consume_reset (s : Store) (T newPw anyPw salt salt2 : String) :
    ((∀ r ∈ s, r.reset_token ≠ some T) →
      update_password s T anyPw salt
        = (Except.error (Err.valueError "Reset token is invalid or expired"), s))
    ∧ (∀ u, find_user_by s [("reset_token", AttrValue.str T)] = Except.ok u →
        (s.map User.id).Nodup →
        (∀ r ∈ s, r.reset_token = some T → r.id = u.id) →
        ∃ s2, update_password s T newPw salt = (Except.ok (), s2)
          ∧ (∀ r ∈ s2, r.id = u.id →
              r.hashed_password = hashpw salt newPw ∧ r.reset_token = none)
          ∧ update_password s2 T anyPw salt2
              = (Except.error (Err.valueError "Reset token is invalid or expired"), s2)) := by
  constructor
  · intro hno
    have hfind : s.find? (fun r => r.reset_token == some T) = none :=
      find?_eq_none_of_all (fun r hr => by simpa using hno r hr)
    simp [update_password, find_user_by_reset, hfind]
  · intro u hfind hnodup huniq
    have hfq : s.find? (fun r => matchesCriterion r ("reset_token", AttrValue.str T)) = some u :=
      find_user_by_ok (by rfl) hfind
    have hmem : u ∈ s := List.mem_of_find?_eq_some hfq
    have hfid : s.find? (fun r => r.id == u.id) = some u := find?_id_of_nodup hmem hnodup
    obtain ⟨l₁, l₂, hs, hl₁, _⟩ := find?_split hfid
    have hl₁id : ∀ x ∈ l₁, (x.id == u.id) = false := hl₁
    have hmem₁ : ∀ x ∈ l₁, x ∈ s := by
      intro x hx
      rw [hs]
      exact List.mem_append_left _ hx
    have hmem₂ : ∀ x ∈ l₂, x ∈ s := by
      intro x hx
      rw [hs]
      exact List.mem_append_right _ (List.mem_cons_of_mem _ hx)
    have hl₂id : ∀ x ∈ l₂, x.id ≠ u.id := by
      intro x hx hEq
      have hnd2 : (u.id :: l₂.map User.id).Nodup := by
        have h0 := hnodup
        rw [hs, List.map_append, List.map_cons] at h0
        exact h0.of_append_right
      have hin : u.id ∈ l₂.map User.id := by
        rw [← hEq]
        exact List.mem_map_of_mem User.id hx
      exact (List.nodup_cons.mp hnd2).1 hin
    have hfindid : find_user_by s [("id", AttrValue.nat u.id)] = Except.ok u := by
      rw [find_user_by_id, hfid]
    have hupd : update_user s u.id
          [("hashed_password", AttrValue.str (hashpw salt newPw)),
           ("reset_token", AttrValue.null)]
        = (Except.ok (),
           updateFirst s u.id (fun r => applyUpdates r
             [("hashed_password", AttrValue.str (hashpw salt newPw)),
              ("reset_token", AttrValue.null)])) := by
      have hva : _valid_attributes ["hashed_password", "reset_token"] = true := by rfl
      simp [update_user, hfindid, hva]
    have hs2 : updateFirst s u.id (fun r => applyUpdates r
          [("hashed_password", AttrValue.str (hashpw salt newPw)),
           ("reset_token", AttrValue.null)])
        = l₁ ++ ({ u with hashed_password := hashpw salt newPw,
                          reset_token := none } : User) :: l₂ := by
      rw [hs]
      exact updateFirst_append _ hl₁id rfl
    refine ⟨l₁ ++ ({ u with hashed_password := hashpw salt newPw,
                            reset_token := none } : User) :: l₂, ?_, ?_, ?_⟩
    · simp only [update_password, hfind, hupd, hs2]
    · intro r hr hrid
      rcases List.mem_append.mp hr with hr | hr
      · exact absurd hrid (by simpa using hl₁id r hr)
      · rcases List.mem_cons.mp hr with rfl | hr
        · exact ⟨rfl, rfl⟩
        · exact absurd hrid (hl₂id r hr)
    · have hfs : (l₁ ++ ({ u with hashed_password := hashpw salt newPw,
                                  reset_token := none } : User) :: l₂).find?
          (fun r => r.reset_token == some T) = none := by
        apply find?_middle_none
        · intro x hx
          have : x.reset_token ≠ some T := by
            intro hEq
            exact (by simpa using hl₁id x hx : x.id ≠ u.id) (huniq x (hmem₁ x hx) hEq)
          simpa using this
        · rfl
        · intro x hx
          have : x.reset_token ≠ some T := by
            intro hEq
            exact hl₂id x hx (huniq x (hmem₂ x hx) hEq)
          simpa using this
      simp [update_password, find_user_by_reset, hfs]

/-- C2 witness: consuming a concrete pending reset token. -/
theorem C2_witness :
    ∃ s2, update_password [⟨1, "a@x.com", "H", none, some "T"⟩] "T" "new" salt22
        = (Except.ok (), s2)
      ∧ (∀ r ∈ s2, r.id = 1 →
          r.hashed_password = hashpw salt22 "new" ∧ r.reset_token = none)
      ∧ update_password s2 "T" "again" salt22
          = (Except.error (Err.valueError "Reset token is invalid or expired"), s2) :=
  (C2_consume_reset [⟨1, "a@x.com", "H", none, some "T"⟩] "T" "new" "again" salt22 salt22).2
    ⟨1, "a@x.com", "H", none, some "T"⟩
    (by decide) (by decide) (by decide)

theorem update_user_snd (s : Store) (uid : Nat) (kwargs : List (String × AttrValue)) :
    (update_user s uid kwargs).2 = s
      ∨ (update_user s uid kwargs).2 = updateFirst s uid (fun r => applyUpdates r kwargs) := by
  unfold update_user
  split
  · exact Or.inl rfl
  · split
    · exact Or.inl rfl
    · exact Or.inr rfl

theorem register_user_snd (s : Store) (e p salt : String) :
    (register_user s e p salt).2 = s
      ∨ (register_user s e p salt).2 = s ++ [⟨nextId s, e, hashpw salt p, none, none⟩] := by
  unfold register_user
  by_cases he : e = ""
  · rw [if_pos he]
    exact Or.inl rfl
  · rw [if_neg he]
    by_cases hp : p = ""
    · rw [if_pos hp]
      exact Or.inl rfl
    · rw [if_neg hp]
      rcases hf : find_user_by s [("email", AttrValue.str e)] with err | db_user
      · cases err
        · exact Or.inl rfl
        · exact Or.inl rfl
        · exact Or.inr rfl
      · exact Or.inl rfl

theorem create_session_snd (s : Store) (e token : String) :
    (create_session s e token).2 = s
      ∨ ∃ uid, (create_session s e token).2
          = (update_user s uid [("session_id", AttrValue.str token)]).2 := by
  unfold create_session
  split
  · exact Or.inl rfl
  · exact Or.inl rfl
  · rename_i db_user hdb
    right
    refine ⟨db_user.id, ?_⟩
    split
    · rename_i e2 s2 hu
      rw [hu]
    · rename_i a s2 hu
      rw [hu]
      split <;> rfl

theorem destroy_session_snd (s : Store) (uid : Nat) :
    (destroy_session s uid).2 = s
      ∨ (destroy_session s uid).2 = (update_user s uid [("session_id", AttrValue.null)]).2 := by
  unfold destroy_session
  rcases hf : find_user_by s [("id", AttrValue.nat uid)] with err | u
  · cases err <;> exact Or.inl rfl
  · exact Or.inr rfl

theorem reset_request_snd (s : Store) (e token : String) :
    (get_reset_password_token s e token).2 = s
      ∨ ∃ uid, (get_reset_password_token s e token).2
          = (update_user s uid [("reset_token", AttrValue.str token)]).2 := by
  unfold get_reset_password_token
  by_cases he : e = ""
  · rw [if_pos he]
    exact Or.inl rfl
  · rw [if_neg he]
    split
    · exact Or.inl rfl
    · exact Or.inl rfl
    · rename_i db_user hdb
      right
      refine ⟨db_user.id, ?_⟩
      split
      · rename_i e2 s2 hu
        rw [hu]
      · rename_i a s2 hu
        rw [hu]

theorem update_password_snd (s : Store) (tok pw salt : String) :
    (update_password s tok pw salt).2 = s
      ∨ ∃ uid, (update_password s tok pw salt).2
          = (update_user s uid
              [("hashed_password", AttrValue.str (hashpw salt pw)),
               ("reset_token", AttrValue.null)]).2 := by
  unfold update_password
  rcases hf : find_user_by s [("reset_token", AttrValue.str tok)] with err | db_user
  · cases err <;> exact Or.inl rfl
  · exact Or.inr ⟨db_user.id, rfl⟩

theorem hashed_updateFirst {s : Store} {uid : Nat} {f : User → User}
    (hs : HashedMaterialOnly s)
    (hf : ∀ u, (f u).hashed_password = u.hashed_password
          ∨ ∃ salt pw, (f u).hashed_password = hashpw salt pw) :
    HashedMaterialOnly (updateFirst s uid f) := by
  intro v hv
  rcases mem_updateFirst hv with hv | ⟨u, hu, rfl⟩
  · exact hs v hv
  · rcases hf u with h | ⟨salt, pw, h⟩
    · rw [h]
      exact hs u hu
    · exact ⟨salt, pw, h⟩

theorem hashed_update_user {s : Store} (uid : Nat) (kwargs : List (String × AttrValue))
    (hs : HashedMaterialOnly s)
    (hk : ∀ u, (applyUpdates u kwargs).hashed_password = u.hashed_password
          ∨ ∃ salt pw, (applyUpdates u kwargs).hashed_password = hashpw salt pw) :
    HashedMaterialOnly (update_user s uid kwargs).2 := by
  rcases update_user_snd s uid kwargs with h | h
  · rw [h]
    exact hs
  · rw [h]
    exact hashed_updateFirst hs hk

/-- C4: in every reachable store state, every record's `hashed_password`
is the output of the salted hashing primitive on some password — the only
writers of the field, registration and reset consumption, write
`_hash_password` output — and it never equals that plaintext password. -/
theorem C4_password_hash_invariant (s : Store) (h : Reachable s) :
    ∀ u ∈ s, ∃ salt pw, u.hashed_password = hashpw salt pw ∧ u.hashed_password ≠ pw := by
  have main : HashedMaterialOnly s := by
    induction h with
    | init =>
      intro u hu
      exact absurd hu (List.not_mem_nil u)
    | register s0 e p salt _ ih =>
      rcases register_user_snd s0 e p salt with h2 | h2
      · rw [h2]
        exact ih
      · rw [h2]
        intro u hu
        rcases List.mem_append.mp hu with hu | hu
        · exact ih u hu
        · have hu2 : u = ⟨nextId s0, e, hashpw salt p, none, none⟩ := by simpa using hu
          subst hu2
          exact ⟨salt, p, rfl⟩
    | session s0 e token _ ih =>
      rcases create_session_snd s0 e token with h2 | ⟨uid, h2⟩
      · rw [h2]
        exact ih
      · rw [h2]
        exact hashed_update_user uid _ ih (fun u => Or.inl rfl)
    | destroy s0 uid _ ih =>
      rcases destroy_session_snd s0 uid with h2 | h2
      · rw [h2]
        exact ih
      · rw [h2]
        exact hashed_update_user uid _ ih (fun u => Or.inl rfl)
    | reset s0 e token _ ih =>
      rcases reset_request_snd s0 e token with h2 | ⟨uid, h2⟩
      · rw [h2]
        exact ih
      · rw [h2]
        exact hashed_update_user uid _ ih (fun u => Or.inl rfl)
    | consume s0 tok pw salt _ ih =>
      rcases update_password_snd s0 tok pw salt with h2 | ⟨uid, h2⟩
      · rw [h2]
        exact ih
      · rw [h2]
        exact hashed_update_user uid _ ih (fun u => Or.inr ⟨salt, pw, rfl⟩)
  intro u hu
  obtain ⟨salt, pw, hh⟩ := main u hu
  refine ⟨salt, pw, hh, ?_⟩
  rw [hh]
  exact hashpw_ne salt pw

/-- C4 witness: the record created by one concrete registration carries
only hashed material. -/
theorem C4_witness :
    ∃ salt pw,
      (⟨1, "a@x.com", hashpw salt22 "pw", none, none⟩ : User).hashed_password
          = hashpw salt pw
        ∧ (⟨1, "a@x.com", hashpw salt22 "pw", none, none⟩ : User).hashed_password ≠ pw :=
  C4_password_hash_invariant (register_user [] "a@x.com" "pw" salt22).2
    (Reachable.register [] "a@x.com" "pw" salt22 Reachable.init)
    ⟨1, "a@x.com", hashpw salt22 "pw", none, none⟩ (by decide)
